import Mathlib

/-!
Verification of the document-retrieval subsystem of the CIO_Agent repository
(`backend/utils/vector_store.py`).

The Python class `VectorStore` is shallowly embedded below:

* text is `List Char`; Python slicing / indexing / `str.strip` are modelled
  by `pySlice`, `pyGet`, `pyStrip` with Python's negative-index and clamping
  semantics;
* `VectorStore._chunk_text` becomes `chunk_text` (the unbounded `while` loop
  is given explicit fuel; `chunk_text_default_eq` shows the fuel used by
  `chunk1000`, the instantiation at the default parameters `size = 1000`,
  `overlap = 200` that every caller in the repository uses, always suffices);
* the external `sklearn` TF-IDF vectorizer and the external FAISS flat L2
  index are modelled by `fitTransform` / `TfidfVectorizer.transform` and
  `IndexFlatL2`; the aspects no theorem depends on (stop-word filtering,
  idf weighting, alphabetical feature order) are documented at each
  definition;
* the store state is `VectorStore`, the persisted artifacts are `FS`, and
  `add_document`, `VectorStore.search`, `build_index`, `save_index`,
  `load_index`, `clear`, `get_stats` mirror the corresponding methods;
  Python in-place mutation that survives a raised exception is modelled by
  returning the mutated state together with an `Option String` error.
-/

namespace CIOAgent

/-- Document text, as a list of characters. -/
abbrev Text := List Char

/-! ### Python string primitives -/

/-- Effective bound of a Python slice index `i` on a sequence of length `n`:
negative indices count from the end, and the result is clamped to `[0, n]`. -/
def pyBound (n : Nat) (i : Int) : Nat :=
  if i < 0 then ((n : Int) + i).toNat else min i.toNat n

/-- Python slice `s[lo:hi]` (step 1). -/
def pySlice (s : Text) (lo hi : Int) : Text :=
  (s.take (pyBound s.length hi)).drop (pyBound s.length lo)

/-- Python indexing `s[i]`: negative indices count from the end; out-of-range
access (an `IndexError` in Python, never reached in the executions analysed
below) yields `none`. -/
def pyGet (s : Text) (i : Int) : Option Char :=
  let j : Int := if i < 0 then (s.length : Int) + i else i
  if 0 ≤ j ∧ j < (s.length : Int) then s.get? j.toNat else none

/-- The whitespace characters removed by Python's `str.strip()`. -/
def isPySpace (c : Char) : Bool :=
  c = ' ' ∨ c = '\t' ∨ c = '\n' ∨ c = '\r' ∨ c = '\x0b' ∨ c = '\x0c'

/-- Python `s.strip()`: drop leading and trailing whitespace. -/
def pyStrip (s : Text) : Text :=
  ((s.dropWhile isPySpace).reverse.dropWhile isPySpace).reverse

/-! ### The chunker (`VectorStore._chunk_text`) -/

/-- The sentence-terminal characters of the chunker's inner scan
(`if text[i] in '.!?'`). -/
def isSentenceEnd (c : Char) : Bool :=
  c = '.' ∨ c = '!' ∨ c = '?'

/-- `terminalAt text i`: position `i` (Python indexing) holds a
sentence-terminal character. -/
def terminalAt (text : Text) (i : Int) : Bool :=
  (pyGet text i).any isSentenceEnd

/-- The chunker's inner scan
`for i in range(end, m, -1): if text[i] in '.!?': ...` — it visits
`i, i-1, …` for `fuel` steps (the caller passes `fuel = (end - m).toNat`, so
the visited indices are exactly `end, end-1, …, m+1`) and returns the first,
i.e. largest, index holding a sentence-terminal character. -/
def scanBack (text : Text) : Nat → Int → Option Int
  | 0, _ => none
  | fuel + 1, i => if terminalAt text i then some i else scanBack text fuel (i - 1)

/-- The cut position chosen for a window starting at `start` with raw end
`end0 = start + size` (only consulted when `end0 < len(text)`): the code
scans `range(end0, max(start + size // 2, end0 - 100), -1)` for a
sentence-terminal character and, if it finds one at `i`, cuts at `i + 1`,
otherwise at `end0`. -/
def cutEnd (text : Text) (start size end0 : Int) : Int :=
  match scanBack text (end0 - max (start + size.fdiv 2) (end0 - 100)).toNat end0 with
  | some i => i + 1
  | none => end0

/-- One unrolling of the chunker's `while start < len(text)` loop, with
explicit fuel standing for the number of iterations still allowed (`none`
means the fuel ran out, i.e. the loop was still running). -/
def chunkLoop (text : Text) (size overlap : Int) : Int → Nat → List Text → Option (List Text)
  | _, 0, _ => none
  | start, fuel + 1, acc =>
    if start < (text.length : Int) then
      let end0 := start + size
      let e := if end0 < (text.length : Int) then cutEnd text start size end0 else end0
      let chunk := pyStrip (pySlice text start e)
      chunkLoop text size overlap (e - overlap) fuel
        (if chunk = [] then acc else acc ++ [chunk])
    else
      some acc

/-- `VectorStore._chunk_text(text, chunk_size, overlap)`: returns `[text]`
unchanged when `len(text) <= chunk_size`, otherwise runs the sliding-window
loop.  The method performs no validation of `size`/`overlap`. -/
def chunk_text (text : Text) (size overlap : Int) (fuel : Nat) : Option (List Text) :=
  if (text.length : Int) ≤ size then some [text]
  else chunkLoop text size overlap 0 fuel []

/-- `_chunk_text` terminates on the given arguments: some amount of fuel
suffices for the loop to finish. -/
def ChunkTextTerminates (text : Text) (size overlap : Int) : Prop :=
  ∃ fuel res, chunk_text text size overlap fuel = some res

/-- The eleven-character text `"aaaaaa.aaaa"`: with the valid parameters
`size = 10`, `overlap = 8` (`0 < size`, `overlap < size`) the sentence break
at position 6 pins the window: from `start = -1` every iteration cuts at
`7` and returns to `start = 7 - 8 = -1`, emitting nothing. -/
def t11 : Text := ['a', 'a', 'a', 'a', 'a', 'a', '.', 'a', 'a', 'a', 'a']

/-- `_chunk_text` at the default parameters `chunk_size = 1000`,
`overlap = 200` — the only parameters any caller in the repository uses.
`chunk_text_default_eq` proves the fuel `text.length + 1` always suffices,
so the `getD` default is never taken. -/
def chunk1000 (text : Text) : List Text :=
  (chunk_text text 1000 200 (text.length + 1)).getD []

/-! ### The TF-IDF vectorizer (external `sklearn` collaborator)

Modelled from the collaborator's documented behaviour, since `sklearn` is an
external library: `TfidfVectorizer(max_features=1000, stop_words='english')`
tokenizes with the default pattern (maximal runs of word characters of length
at least two, lowercased), builds a vocabulary of the distinct corpus tokens
truncated to 1000 features, raises `ValueError` (here the string
`"empty vocabulary"`) when the vocabulary is empty, and otherwise produces one
vector per document whose length is the vocabulary size.  The
`stop_words='english'` filter, the idf weighting of the entries and the
alphabetical feature order are abstracted (raw term counts in first-occurrence
order stand in for them): no theorem below depends on the numeric entries or
on the order of features, only on success/failure of fitting and on the
vector lengths. -/

/-- A vocabulary token (lowercased). -/
abbrev Token := List Char

/-- A chunk vector (one coordinate per vocabulary feature). -/
abbrev Vec := List ℚ

/-- Word characters of the default `sklearn` token pattern. -/
def isWordChar (c : Char) : Bool :=
  c.isAlphanum || c = '_'

/-- Tokenize a text: maximal runs of word characters of length at least two,
lowercased. -/
def tokenize (s : Text) : List Token :=
  ((s.splitOnP (fun c => !isWordChar c)).filter (fun t => 2 ≤ t.length)).map
    (fun t => t.map Char.toLower)

/-- The vocabulary fitted over a corpus: distinct tokens, truncated to
`max_features = 1000`. -/
def fitVocab (docs : List Text) : List Token :=
  ((docs.map tokenize).flatten.dedup).take 1000

/-- The term-count vector of a document over a fitted vocabulary (stands in
for the tf-idf weighting, see the section comment). -/
def countVec (voc : List Token) (d : Text) : Vec :=
  voc.map (fun t => ((tokenize d).count t : ℚ))

/-- The fitted state of the vectorizer: `none` until the first successful
fit (`sklearn` raises `NotFittedError` if `transform` is called before). -/
structure TfidfVectorizer where
  vocab : Option (List Token)
deriving DecidableEq

/-- `self.vectorizer.fit_transform(self.documents)`: fits the vocabulary over
the corpus and returns the refitted vectorizer together with one vector per
document; raises (`Except.error`) when the vocabulary is empty. -/
def fitTransform (docs : List Text) : Except String (TfidfVectorizer × List Vec) :=
  let voc := fitVocab docs
  if voc = [] then .error "empty vocabulary"
  else .ok (⟨some voc⟩, docs.map (countVec voc))

/-- `self.vectorizer.transform([query])`: `none` models the `NotFittedError`
raised on an unfitted vectorizer. -/
def TfidfVectorizer.transform (v : TfidfVectorizer) (q : Text) : Option Vec :=
  v.vocab.map (fun voc => countVec voc q)

/-! ### The FAISS flat L2 index (external `faiss` collaborator)

`faiss.IndexFlatL2` is an external library; it is modelled as the exact
squared-L2 k-nearest-neighbour search its documentation (and §4.3 of the
spec) describe, with deterministic tie-breaking by insertion position.
`VectorStore.search` only ever calls it with `k ≤ ntotal`, so the `-1`
padding entries real FAISS emits for `k > ntotal` never occur and the
model returns exactly `min k ntotal` results. -/

/-- Squared Euclidean distance (FAISS `IndexFlatL2` returns squared
distances, no square root). -/
def l2dist (u v : Vec) : ℚ :=
  ((u.zip v).map (fun p => (p.1 - p.2) * (p.1 - p.2))).sum

/-- Result ordering of the k-NN search: ascending distance, ties broken by
the smaller position id. -/
def resLe (a b : Nat × ℚ) : Prop :=
  a.2 < b.2 ∨ (a.2 = b.2 ∧ a.1 ≤ b.1)

instance : DecidableRel resLe := fun a b =>
  decidable_of_iff (a.2 < b.2 ∨ (a.2 = b.2 ∧ a.1 ≤ b.1)) Iff.rfl

instance : IsTotal (Nat × ℚ) resLe where
  total a b := by
    rcases lt_trichotomy a.2 b.2 with h | h | h
    · exact Or.inl (Or.inl h)
    · rcases Nat.le_total a.1 b.1 with h1 | h1
      · exact Or.inl (Or.inr ⟨h, h1⟩)
      · exact Or.inr (Or.inr ⟨h.symm, h1⟩)
    · exact Or.inr (Or.inl h)

instance : IsTrans (Nat × ℚ) resLe where
  trans a b c hab hbc := by
    rcases hab with h1 | ⟨h1, h1n⟩ <;> rcases hbc with h2 | ⟨h2, h2n⟩
    · exact Or.inl (h1.trans h2)
    · exact Or.inl (h2 ▸ h1)
    · exact Or.inl (h1 ▸ h2)
    · exact Or.inr ⟨h1.trans h2, h1n.trans h2n⟩

/-- The flat L2 index: the fixed dimension `d` it was constructed with and
the stored vectors, in insertion order. -/
structure IndexFlatL2 where
  d : Nat
  xb : List Vec
deriving DecidableEq

/-- `index.ntotal`: the number of stored vectors. -/
def IndexFlatL2.ntotal (ix : IndexFlatL2) : Nat :=
  ix.xb.length

/-- The `(positionId, squaredDistance)` pair of every stored vector against
a query. -/
def knnPairs (ix : IndexFlatL2) (q : Vec) : List (Nat × ℚ) :=
  (List.range ix.xb.length).map (fun i => (i, l2dist q (ix.xb.getD i [])))

/-- `index.search(query, k)`: the `(positionId, squaredDistance)` pairs of
the `min k ntotal` nearest stored vectors, ascending by distance, ties
broken by the smaller position id. -/
def IndexFlatL2.search (ix : IndexFlatL2) (q : Vec) (k : Nat) : List (Nat × ℚ) :=
  ((knnPairs ix q).insertionSort resLe).take k

/-! ### Metadata dictionaries -/

/-- A metadata dictionary value (the repository stores strings and ints). -/
inductive MVal where
  | str (s : String)
  | nat (n : Nat)
deriving DecidableEq

/-- A chunk-metadata dictionary, in insertion order (Python dicts preserve
it). -/
abbrev Meta := List (String × MVal)

/-- Look a key up in a metadata dictionary. -/
def metaGet (k : String) (d : Meta) : Option MVal :=
  (d.find? (fun p => p.1 = k)).map (fun p => p.2)

/-- Python `dict` assignment of one key: replace the value in place if the
key is present, else append the new entry. -/
def upsert (d : Meta) (k : String) (v : MVal) : Meta :=
  if d.any (fun p => p.1 = k) then
    d.map (fun p => if p.1 = k then (k, v) else p)
  else d ++ [(k, v)]

/-- Python `chunk_metadata.update(metadata)`. -/
def dictUpdate (d e : Meta) : Meta :=
  e.foldl (fun acc p => upsert acc p.1 p.2) d

/-- How an f-string renders a metadata value. -/
def MVal.render : MVal → String
  | .str s => s
  | .nat n => toString n

/-! ### The store state and the persisted artifacts -/

/-- The in-memory state of `VectorStore`: the chunk texts, the parallel
metadata dictionaries, the FAISS index (`None` before the first successful
build), the TF-IDF vectorizer and the trained flag. -/
structure VectorStore where
  documents : List Text
  metadata : List Meta
  index : Option IndexFlatL2
  vectorizer : TfidfVectorizer
  is_trained : Bool
deriving DecidableEq

/-- The state `__init__` sets up before attempting a load. -/
def emptyStore : VectorStore :=
  ⟨[], [], none, ⟨none⟩, false⟩

/-- The persisted artifacts in the store directory: `index.faiss`,
`documents.pkl`, `metadata.pkl`, `vectorizer.pkl` (`none` = the file does
not exist). -/
structure FS where
  indexFile : Option IndexFlatL2
  documentsFile : Option (List Text)
  metadataFile : Option (List Meta)
  vectorizerFile : Option TfidfVectorizer
deriving DecidableEq

/-- An empty store directory. -/
def emptyFS : FS :=
  ⟨none, none, none, none⟩

/-! ### The store operations -/

/-- `VectorStore._build_index`: a no-op on an empty document list; otherwise
refits the vectorizer over the whole corpus and replaces the index by a
fresh `IndexFlatL2` of dimension `vectors.shape[1]` holding the fitted
vectors.  A fit failure propagates as `some error` and leaves the state
unchanged. -/
def build_index (st : VectorStore) : VectorStore × Option String :=
  if st.documents.length = 0 then (st, none)
  else
    match fitTransform st.documents with
    | .error e => (st, some e)
    | .ok (v, vecs) =>
      ({ st with
          vectorizer := v
          index := some ⟨(vecs.headD []).length, vecs⟩
          is_trained := true }, none)

/-- `VectorStore._save_index`: writes all four artifacts when an index
exists, otherwise does nothing. -/
def save_index (st : VectorStore) (fs : FS) : FS :=
  match st.index with
  | none => fs
  | some ix => ⟨some ix, some st.documents, some st.metadata, some st.vectorizer⟩

/-- `VectorStore._load_index`: if all four artifact files exist, replace the
whole state by their contents (no consistency validation); otherwise leave
the state as it is.  (`__init__` calls this on the freshly initialised empty
state.) -/
def load_index (st : VectorStore) (fs : FS) : VectorStore :=
  match fs.indexFile, fs.documentsFile, fs.metadataFile, fs.vectorizerFile with
  | some ix, some docs, some md, some v => ⟨docs, md, some ix, v, true⟩
  | _, _, _, _ => st

/-- `VectorStore(store_path)`: construct the empty state, then try to load a
prior snapshot. -/
def initStore (fs : FS) : VectorStore :=
  load_index emptyStore fs

/-- The metadata dictionary built for chunk `i` of `n` of file `filename`,
merged with the caller-supplied extra metadata (an absent/empty `metadata`
argument is the empty list, on which `dictUpdate` is the identity, matching
the `if metadata:` guard). -/
def chunkMeta (filename : String) (i n : Nat) (extra : Meta) : Meta :=
  dictUpdate [("filename", .str filename), ("chunk_id", .nat i),
    ("total_chunks", .nat n)] extra

/-- The state after the appending `for` loop of `add_document`: each chunk
pushed onto `self.documents` and its metadata dictionary onto
`self.metadata`, in lockstep. -/
def appended (st : VectorStore) (content : Text) (filename : String)
    (extra : Meta) : VectorStore :=
  { st with
      documents := st.documents ++ chunk1000 content
      metadata := st.metadata ++
        (chunk1000 content).enum.map
          (fun p => chunkMeta filename p.1 (chunk1000 content).length extra) }

/-- `VectorStore.add_document(content, filename, metadata)`: chunk the
content, append each chunk and its metadata dictionary to the parallel
lists, rebuild the index, and save.  A rebuild failure re-raises
(`some error`); the appended chunks remain (Python list mutation is not
rolled back) and the save is skipped. -/
def add_document (st : VectorStore) (fs : FS) (content : Text) (filename : String)
    (extra : Meta) : VectorStore × FS × Option String :=
  match build_index (appended st content filename extra) with
  | (st2, some e) => (st2, fs, some e)
  | (st2, none) => (st2, save_index st2 fs, none)

/-- The sentinel `search` returns on an untrained/empty store. -/
def noDocsMessage : String :=
  "No documents available for search."

/-- The `"Search error: ..."` string `search` returns when any step of the
search raises (the Python message carries the exception text, which is not
modelled). -/
def searchErrorMessage : String :=
  "Search error"

/-- The `for i, idx in enumerate(indices[0])` collection loop of `search`:
renders `"From {filename}: {chunk}"` per result; a missing document,
metadata entry or `"filename"` key raises (`none`), as `IndexError`/
`KeyError` would.  (`idx != -1` is always true here, since the index is
queried with `k ≤ ntotal`.) -/
def collectChunks (st : VectorStore) : List (Nat × ℚ) → Option (List String)
  | [] => some []
  | (i, _) :: rest =>
    match st.documents.get? i, st.metadata.get? i with
    | some ch, some md =>
      match metaGet "filename" md with
      | some fv =>
        (collectChunks st rest).map
          (fun tl => ("From " ++ fv.render ++ ": " ++ String.mk ch) :: tl)
      | none => none
    | _, _ => none

/-- `VectorStore.search(query, k)`: the sentinel on an untrained or empty
store; otherwise transform the query, search the index with
`min k (len documents)` and join the rendered chunks with blank lines.  Any
exception (unfitted vectorizer, missing index, dimension mismatch with the
index, bad position id) is caught and rendered as the search-error
string. -/
def VectorStore.search (st : VectorStore) (query : Text) (k : Nat) : String :=
  if !st.is_trained || st.documents.length == 0 then noDocsMessage
  else
    match st.vectorizer.transform query with
    | none => searchErrorMessage
    | some qv =>
      match st.index with
      | none => searchErrorMessage
      | some ix =>
        if qv.length ≠ ix.d then searchErrorMessage
        else
          match collectChunks st (ix.search qv (min k st.documents.length)) with
          | none => searchErrorMessage
          | some parts => String.intercalate "\n\n" parts

/-- `VectorStore.clear`: reset the in-memory state (the vectorizer object is
kept) and delete the four artifact files. -/
def clear (st : VectorStore) (_fs : FS) : VectorStore × FS :=
  ({ st with documents := [], metadata := [], index := none, is_trained := false },
   emptyFS)

/-- The record `VectorStore.get_stats` returns. -/
structure Stats where
  total_documents : Nat
  is_trained : Bool
  unique_files : Nat
deriving DecidableEq

/-- `VectorStore.get_stats`. -/
def get_stats (st : VectorStore) : Stats :=
  ⟨st.documents.length, st.is_trained,
    if st.metadata = [] then 0
    else ((st.metadata.map (metaGet "filename")).dedup).length⟩

/-! ## Lemmas about the chunker's sentence scan -/

/-- If the backward scan starting at `i` with `f` steps finds `j`, then `j`
lies in the scanned range `(i - f, i]`, holds a sentence terminal, and every
position strictly above it in the range does not. -/
theorem scanBack_some (text : Text) :
    ∀ (f : Nat) (i j : Int), scanBack text f i = some j →
      i - f < j ∧ j ≤ i ∧ terminalAt text j = true ∧
        ∀ l : Int, j < l → l ≤ i → terminalAt text l = false := by
  intro f
  induction f with
  | zero => intro i j h; simp [scanBack] at h
  | succ f ih =>
    intro i j h
    rw [scanBack] at h
    by_cases ht : terminalAt text i
    · rw [if_pos ht] at h
      obtain rfl : i = j := by simpa using h
      refine ⟨by omega, le_refl _, ht, ?_⟩
      intro l hl1 hl2
      omega
    · rw [if_neg ht] at h
      obtain ⟨h1, h2, h3, h4⟩ := ih (i - 1) j h
      refine ⟨by omega, by omega, h3, ?_⟩
      intro l hl1 hl2
      by_cases hli : l = i
      · subst hli
        exact Bool.not_eq_true _ ▸ ht
      · exact h4 l hl1 (by omega)

/-- If the backward scan finds nothing, no position in the scanned range
holds a sentence terminal. -/
theorem scanBack_none (text : Text) :
    ∀ (f : Nat) (i : Int), scanBack text f i = none →
      ∀ l : Int, i - f < l → l ≤ i → terminalAt text l = false := by
  intro f
  induction f with
  | zero =>
    intro i _ l hl1 hl2
    exfalso
    omega
  | succ f ih =>
    intro i h l hl1 hl2
    rw [scanBack] at h
    by_cases ht : terminalAt text i
    · rw [if_pos ht] at h; cases h
    · rw [if_neg ht] at h
      by_cases hli : l = i
      · subst hli
        exact Bool.not_eq_true _ ▸ ht
      · exact ih (i - 1) h l (by omega) (by omega)

/-- Characterization of the cut position of a window: the code breaks right
after the largest sentence-terminal position in
`(max (start + size/2) (end0 - 100), end0]` and, if that range holds none,
cuts at the raw boundary `end0`. -/
theorem cutEnd_characterization (text : Text) (start size end0 : Int) :
    (∃ j : Int, max (start + size.fdiv 2) (end0 - 100) < j ∧ j ≤ end0 ∧
        terminalAt text j = true ∧
        (∀ l : Int, j < l → l ≤ end0 → terminalAt text l = false) ∧
        cutEnd text start size end0 = j + 1) ∨
      ((∀ l : Int, max (start + size.fdiv 2) (end0 - 100) < l → l ≤ end0 →
          terminalAt text l = false) ∧
        cutEnd text start size end0 = end0) := by
  rcases h : scanBack text (end0 - max (start + size.fdiv 2) (end0 - 100)).toNat end0
    with _ | j
  · right
    have h0 := scanBack_none text _ end0 h
    refine ⟨?_, by rw [cutEnd, h]⟩
    intro l hl1 hl2
    refine h0 l ?_ hl2
    rcases le_or_lt 0 (end0 - max (start + size.fdiv 2) (end0 - 100)) with hnn | hneg
    · rw [Int.toNat_of_nonneg hnn]; omega
    · rw [Int.toNat_eq_zero.mpr (le_of_lt hneg)]; omega
  · left
    obtain ⟨h1, h2, h3, h4⟩ := scanBack_some text _ end0 j h
    refine ⟨j, ?_, h2, h3, h4, by rw [cutEnd, h]⟩
    rcases le_or_lt 0 (end0 - max (start + size.fdiv 2) (end0 - 100)) with hnn | hneg
    · rw [Int.toNat_of_nonneg hnn] at h1; omega
    · rw [Int.toNat_eq_zero.mpr (le_of_lt hneg)] at h
      simp [scanBack] at h

/-! ## Termination of the chunker at the default parameters -/

/-- At `size = 1000` the cut of a window never retreats past
`start + 902`: the scan range stops at `max (start + 500) (end - 100)
= start + 900` (exclusive), so a found break yields at least
`start + 902`, and no break yields the raw `start + 1000`. -/
theorem cutEnd_default_lb (text : Text) (start : Int) :
    start + 902 ≤ cutEnd text start 1000 (start + 1000) := by
  rcases cutEnd_characterization text start 1000 (start + 1000) with
    ⟨j, hj1, _, _, _, he⟩ | ⟨_, he⟩
  · rw [he]
    have : (1000 : Int).fdiv 2 = 500 := by decide
    rw [this] at hj1
    omega
  · omega

/-- With the default parameters the loop terminates once the fuel exceeds
the remaining length, since each iteration advances `start` by at least
`702`. -/
theorem chunkLoop_default_isSome (text : Text) :
    ∀ (fuel : Nat) (start : Int) (acc : List Text),
      ((text.length : Int) - start).toNat < fuel →
      (chunkLoop text 1000 200 start fuel acc).isSome := by
  intro fuel
  induction fuel with
  | zero => intro start acc h; omega
  | succ f ih =>
    intro start acc h
    rw [chunkLoop]
    split
    · rename_i hlt
      apply ih
      split
      · have := cutEnd_default_lb text start
        omega
      · omega
    · simp

/-- The fuel `text.length + 1` suffices for `_chunk_text` at the default
parameters `size = 1000`, `overlap = 200`, so `chunk1000` computes the
loop's actual result. -/
theorem chunk_text_default_eq (text : Text) :
    chunk_text text 1000 200 (text.length + 1) = some (chunk1000 text) := by
  have h : (chunk_text text 1000 200 (text.length + 1)).isSome := by
    rw [chunk_text]
    split
    · simp
    · exact chunkLoop_default_isSome text _ 0 [] (by omega)
  rw [chunk1000]
  obtain ⟨r, hr⟩ := Option.isSome_iff_exists.mp h
  rw [hr]
  rfl

/-! ## Divergence of the chunker on degenerate and unlucky parameters -/

/-- An empty Python slice. -/
theorem pySlice_self (s : Text) (a : Int) : pySlice s a a = [] := by
  rw [pySlice]
  exact List.drop_eq_nil_of_le (List.length_take_le _ _)

/-- With `chunk_size = 0` and `overlap = 200` on the two-character text
`"hi"`, every loop iteration moves `start` down by `200` and emits nothing,
so the loop runs out of any amount of fuel. -/
theorem chunkLoop_zero_size_stuck :
    ∀ (f : Nat) (start : Int) (acc : List Text), start ≤ 0 →
      chunkLoop ['h', 'i'] 0 200 start f acc = none := by
  intro f
  induction f with
  | zero => intro start acc _; rfl
  | succ f ih =>
    intro start acc hs
    rw [chunkLoop]
    have hlt : start < ((['h', 'i'] : Text).length : Int) := by
      simp only [List.length_cons, List.length_nil]
      omega
    rw [if_pos hlt]
    have he : (if start + 0 < ((['h', 'i'] : Text).length : Int) then
        cutEnd ['h', 'i'] start 0 (start + 0) else start + 0) = start := by
      rw [if_pos (by simpa using hlt)]
      rw [cutEnd]
      have hm : max (start + (0 : Int).fdiv 2) (start + 0 - 100) = start := by
        have : (0 : Int).fdiv 2 = 0 := by decide
        rw [this]
        omega
      have hz : (start + 0 - max (start + (0 : Int).fdiv 2) (start + 0 - 100)).toNat = 0 := by
        rw [hm]
        omega
      rw [hz]
      simp only [scanBack]
      omega
    simp only [he, pySlice_self]
    exact ih (start - 200) acc (by omega)

/-- `_chunk_text("hi", 0, 200)` never terminates, whatever the fuel. -/
theorem chunk_text_zero_size_none (fuel : Nat) :
    chunk_text ['h', 'i'] 0 200 fuel = none := by
  rw [chunk_text]
  rw [if_neg (by decide)]
  exact chunkLoop_zero_size_stuck fuel 0 [] (le_refl 0)

/-- From `start = -1` the loop on `t11` with `size = 10`, `overlap = 8` is a
fixed point: it never terminates. -/
theorem chunkLoop_t11_stuck :
    ∀ (f : Nat) (acc : List Text), chunkLoop t11 10 8 (-1) f acc = none := by
  intro f
  induction f with
  | zero => intro acc; rfl
  | succ f ih => intro acc; exact ih acc

/-- `_chunk_text("aaaaaa.aaaa", 10, 8)` never terminates, despite
`0 < size` and `overlap < size`. -/
theorem chunk_text_t11_none (fuel : Nat) :
    chunk_text t11 10 8 fuel = none := by
  cases fuel with
  | zero => rfl
  | succ f => exact chunkLoop_t11_stuck f _

/-! ## Shape of the chunker's output -/

/-- Pushing a conditionally appended element through a universally
quantified invariant on the accumulator. -/
theorem mem_ite_append {α : Type} (c : Prop) [Decidable c] (acc : List α) (x : α)
    (P : α → Prop) (hacc : ∀ a ∈ acc, P a) (hx : ¬c → P x) :
    ∀ a ∈ (if c then acc else acc ++ [x]), P a := by
  split
  · exact hacc
  · rename_i hc
    intro a ha
    rcases List.mem_append.mp ha with ha | ha
    · exact hacc a ha
    · rw [List.mem_singleton] at ha
      subst ha
      exact hx hc

/-- Invariant of the sliding-window loop: every segment it ever appends is a
stripped slice of the text and was checked non-empty before being kept. -/
theorem chunkLoop_segments (text : Text) (size overlap : Int) :
    ∀ (fuel : Nat) (start : Int) (acc res : List Text),
      (∀ seg ∈ acc, seg ≠ [] ∧ ∃ lo hi : Int, seg = pyStrip (pySlice text lo hi)) →
      chunkLoop text size overlap start fuel acc = some res →
      ∀ seg ∈ res, seg ≠ [] ∧ ∃ lo hi : Int, seg = pyStrip (pySlice text lo hi) := by
  intro fuel
  induction fuel with
  | zero => intro start acc res _ h; simp [chunkLoop] at h
  | succ f ih =>
    intro start acc res hacc h
    simp only [chunkLoop] at h
    split at h
    · refine ih _ _ res (mem_ite_append _ _ _ _ hacc ?_) h
      intro hne
      exact ⟨hne, start, _, rfl⟩
    · obtain rfl : acc = res := by simpa using h
      exact hacc

/-! ## Lemmas about the modelled k-NN search -/

/-- The pair list the index search sorts: position ids are exactly
`0, …, n-1`. -/
theorem knnPairs_map_fst (ix : IndexFlatL2) (q : Vec) :
    (knnPairs ix q).map Prod.fst = List.range ix.xb.length := by
  rw [knnPairs, List.map_map]
  exact List.map_id _

/-- The sorted pair list is a permutation of `knnPairs`. -/
theorem knn_sorted_perm (ix : IndexFlatL2) (q : Vec) :
    List.Perm ((knnPairs ix q).insertionSort resLe) (knnPairs ix q) :=
  List.perm_insertionSort resLe (knnPairs ix q)

/-- The sorted pair list has pairwise strictly increasing
(distance, positionId) in the lexicographic order: ascending distances,
ties broken by the smaller position id. -/
theorem knn_sorted_pairwise (ix : IndexFlatL2) (q : Vec) :
    ((knnPairs ix q).insertionSort resLe).Pairwise
      (fun a b : Nat × ℚ => a.2 < b.2 ∨ (a.2 = b.2 ∧ a.1 < b.1)) := by
  have hs : ((knnPairs ix q).insertionSort resLe).Pairwise resLe :=
    List.sorted_insertionSort resLe (knnPairs ix q)
  have hnd : (((knnPairs ix q).insertionSort resLe).map Prod.fst).Nodup := by
    refine (((knn_sorted_perm ix q).map Prod.fst).nodup_iff).mpr ?_
    rw [knnPairs_map_fst]
    exact List.nodup_range _
  have hne : ((knnPairs ix q).insertionSort resLe).Pairwise
      (fun a b : Nat × ℚ => a.1 ≠ b.1) := List.pairwise_map.mp hnd
  refine (hs.and hne).imp ?_
  rintro a b ⟨hle, hab⟩
  rcases hle with h | ⟨h1, h2⟩
  · exact Or.inl h
  · exact Or.inr ⟨h1, lt_of_le_of_ne h2 hab⟩

/-! ## Lemmas about the store operations -/

/-- `_build_index` never touches the document and metadata lists. -/
theorem build_index_fst_lists (s : VectorStore) :
    (build_index s).1.documents = s.documents ∧
      (build_index s).1.metadata = s.metadata := by
  rw [build_index]
  split
  · exact ⟨rfl, rfl⟩
  · split
    · exact ⟨rfl, rfl⟩
    · exact ⟨rfl, rfl⟩

/-- A failing `_build_index` leaves the state exactly as it was. -/
theorem build_index_error_eq {s s' : VectorStore} {e : String}
    (h : build_index s = (s', some e)) : s' = s := by
  rw [build_index] at h
  split at h
  · simp at h
  · split at h
    · rename_i v vecs heq
      simp only [Prod.mk.injEq] at h
      exact h.1.symm
    · simp at h

/-- A successful `_build_index` either had nothing to do (empty corpus) or
refit the vectorizer and replaced the index by a fresh one of dimension
equal to the fitted vocabulary size, holding one count vector per
document. -/
theorem build_index_ok {s s' : VectorStore} (h : build_index s = (s', none)) :
    (s' = s ∧ s.documents = []) ∨
      (s.documents ≠ [] ∧ fitVocab s.documents ≠ [] ∧
        s' = { s with
                vectorizer := ⟨some (fitVocab s.documents)⟩
                index := some ⟨(fitVocab s.documents).length,
                               s.documents.map (countVec (fitVocab s.documents))⟩
                is_trained := true }) := by
  rw [build_index] at h
  split at h
  · rename_i hlen
    left
    simp only [Prod.mk.injEq] at h
    exact ⟨h.1.symm, List.length_eq_zero.mp hlen⟩
  · rename_i hlen
    right
    have hd : s.documents ≠ [] := fun hnil => hlen (by rw [hnil]; rfl)
    cases hft : fitTransform s.documents with
    | error e0 => rw [hft] at h; simp at h
    | ok p =>
      obtain ⟨v, vecs⟩ := p
      rw [hft] at h
      simp only [Prod.mk.injEq] at h
      rw [fitTransform] at hft
      split at hft
      · simp at hft
      · rename_i hvoc
        simp only [Except.ok.injEq, Prod.mk.injEq] at hft
        obtain ⟨rfl, rfl⟩ := hft
        refine ⟨hd, hvoc, ?_⟩
        rw [← h.1]
        have hhead : ((s.documents.map (countVec (fitVocab s.documents))).headD []).length
            = (fitVocab s.documents).length := by
          cases hdoc : s.documents with
          | nil => exact absurd hdoc hd
          | cons a as => simp [countVec]
        rw [hhead]

/-- Inversion of a failing `add_document`: the result state is the
appended state, the artifacts are untouched, and the error came from the
rebuild. -/
theorem add_document_error_eq {st : VectorStore} {fs : FS} {c : Text} {fn : String}
    {ex : Meta} {st2 : VectorStore} {fs2 : FS} {e : String}
    (h : add_document st fs c fn ex = (st2, fs2, some e)) :
    st2 = appended st c fn ex ∧ fs2 = fs := by
  rw [add_document] at h
  rcases hb : build_index (appended st c fn ex) with ⟨s2, e'⟩
  rw [hb] at h
  cases e' with
  | none => simp at h
  | some e0 =>
    simp only [Prod.mk.injEq, Option.some.injEq] at h
    obtain ⟨rfl, rfl, rfl⟩ := h
    exact ⟨build_index_error_eq hb, rfl⟩

/-- Inversion of a successful `add_document`: the result state is the
successful rebuild of the appended state and the artifacts were saved from
it. -/
theorem add_document_ok_eq {st : VectorStore} {fs : FS} {c : Text} {fn : String}
    {ex : Meta} {st2 : VectorStore} {fs2 : FS}
    (h : add_document st fs c fn ex = (st2, fs2, none)) :
    build_index (appended st c fn ex) = (st2, none) ∧ fs2 = save_index st2 fs := by
  rw [add_document] at h
  rcases hb : build_index (appended st c fn ex) with ⟨s2, e'⟩
  rw [hb] at h
  cases e' with
  | some e0 => simp at h
  | none =>
    simp only [Prod.mk.injEq] at h
    obtain ⟨rfl, rfl, -⟩ := h
    exact ⟨rfl, rfl⟩

/-- Whatever `add_document` returns, the result state carries the appended
document and metadata lists. -/
theorem add_document_fst_lists (st : VectorStore) (fs : FS) (c : Text)
    (fn : String) (ex : Meta) :
    (add_document st fs c fn ex).1.documents = (appended st c fn ex).documents ∧
      (add_document st fs c fn ex).1.metadata = (appended st c fn ex).metadata := by
  rw [add_document]
  rcases hb : build_index (appended st c fn ex) with ⟨s2, e'⟩
  have h1 := build_index_fst_lists (appended st c fn ex)
  rw [hb] at h1
  cases e' with
  | some e0 => exact h1
  | none => exact h1

/-! ## The claims -/

/-- C1 (counterexample): on the empty store `search` does not return (a
rendering of) an empty result sequence — it returns the non-empty sentinel
string `"No documents available for search."`, a value other than the
join of zero results. -/
theorem search_empty_store_not_result_list :
    VectorStore.search emptyStore ['q'] 5 = noDocsMessage ∧
      noDocsMessage ≠ String.intercalate "\n\n" [] :=
  ⟨rfl, by decide⟩

/-- C1 (amended): for every store holding zero chunks and every query and
`k`, `search` returns the sentinel string
`"No documents available for search."` (and, being a total function of the
state, raises nothing). -/
theorem search_empty_store_sentinel (st : VectorStore) (q : Text) (k : Nat)
    (h : st.documents = []) : st.search q k = noDocsMessage := by
  rw [VectorStore.search, h]
  simp

/-- Witness for `search_empty_store_sentinel` at the freshly constructed
empty store. -/
theorem search_empty_store_sentinel_inst :
    VectorStore.search emptyStore ['x'] 3 = noDocsMessage :=
  search_empty_store_sentinel emptyStore ['x'] 3 rfl

/-- C4 (confirmed): saving a store and loading the snapshot into a freshly
constructed store yields identical `search` output for every query and
every `k`.  The hypothesis is the reachable-state invariant that the
trained flag tracks the presence of an index. -/
theorem save_load_roundtrip_search_eq (st : VectorStore) (q : Text) (k : Nat)
    (h : st.is_trained = st.index.isSome) :
    (load_index emptyStore (save_index st emptyFS)).search q k = st.search q k := by
  obtain ⟨docs, md, ixo, v, tr⟩ := st
  cases ixo with
  | none =>
    simp only [Option.isSome_none] at h
    subst h
    rfl
  | some ix =>
    simp only [Option.isSome_some] at h
    subst h
    rfl

/-- Witness for `save_load_roundtrip_search_eq` at the store produced by one
successful `add_document`. -/
theorem save_load_roundtrip_search_eq_inst :
    (load_index emptyStore
        (save_index (add_document emptyStore emptyFS "alpha".toList "f1" []).1
          emptyFS)).search "alpha".toList 5
      = (add_document emptyStore emptyFS "alpha".toList "f1" []).1.search
          "alpha".toList 5 :=
  save_load_roundtrip_search_eq _ _ 5 (by decide)

/-- C5 (confirmed): the modelled flat L2 index search returns `min k n`
pairs (`[]` for `k = 0`, all `n` for `k > n`), sorted by strictly
lexicographically increasing (distance, positionId) — ascending squared L2
distance to the query with ties broken by the smaller position id — and
each returned pair carries a valid position and the true squared distance
of that stored vector. -/
theorem index_search_knn_contract (ix : IndexFlatL2) (q : Vec) (k : Nat) :
    (ix.search q k).length = min k ix.ntotal ∧
      ix.search q 0 = [] ∧
      (ix.search q k).Pairwise
        (fun a b : Nat × ℚ => a.2 < b.2 ∨ (a.2 = b.2 ∧ a.1 < b.1)) ∧
      ∀ p ∈ ix.search q k, p.1 < ix.ntotal ∧ p.2 = l2dist q (ix.xb.getD p.1 []) := by
  refine ⟨?_, ?_, ?_, ?_⟩
  · rw [IndexFlatL2.search, List.length_take, (knn_sorted_perm ix q).length_eq,
      knnPairs, List.length_map, List.length_range, IndexFlatL2.ntotal]
  · rw [IndexFlatL2.search, List.take_zero]
  · exact List.Pairwise.sublist (List.take_sublist k _) (knn_sorted_pairwise ix q)
  · intro p hp
    have hp1 : p ∈ (knnPairs ix q).insertionSort resLe := List.mem_of_mem_take hp
    have hp2 : p ∈ knnPairs ix q := (knn_sorted_perm ix q).mem_iff.mp hp1
    rw [knnPairs] at hp2
    obtain ⟨i, hi, hpe⟩ := List.mem_map.mp hp2
    cases hpe
    exact ⟨List.mem_range.mp hi, rfl⟩

/-- C7 (counterexample): `_chunk_text` performs no parameter validation and
raises nothing: with `size = 0 ≤ 0` (which the claim demands be rejected
with `InvalidChunkParameters`) the loop never terminates; moreover even the
valid parameters `size = 10 > 0`, `overlap = 8 < size` loop forever on
`"aaaaaa.aaaa"`, the sentence break pinning the window start. -/
theorem chunker_accepts_degenerate_params :
    ¬ChunkTextTerminates ['h', 'i'] 0 200 ∧
      ((0 : Int) < 10 ∧ (8 : Int) < 10 ∧ ¬ChunkTextTerminates t11 10 8) := by
  refine ⟨?_, by norm_num, by norm_num, ?_⟩
  · rintro ⟨f, r, hr⟩
    rw [chunk_text_zero_size_none] at hr
    exact Option.noConfusion hr
  · rintro ⟨f, r, hr⟩
    rw [chunk_text_t11_none] at hr
    exact Option.noConfusion hr

/-- C7 (amended): `_chunk_text` has no parameter validation and never
raises `InvalidChunkParameters`; divergence is possible even under valid
parameters.  At the default parameters `size = 1000`, `overlap = 200` — the
only values any caller of the repository passes — every iteration advances
the window start by at least `702`, and the chunker terminates on every
text within `text.length + 1` iterations. -/
theorem chunker_defaults_terminate :
    (∀ text : Text, chunk_text text 1000 200 (text.length + 1)
        = some (chunk1000 text)) ∧
      ∀ (text : Text) (start : Int),
        start + 702 ≤ cutEnd text start 1000 (start + 1000) :=
  ⟨chunk_text_default_eq, fun text start => by
    have := cutEnd_default_lb text start
    omega⟩

set_option maxRecDepth 40000 in
/-- C8 (counterexample): the text `a^102 . a^100` (length 203) with
`size = 202`: the sentence terminal at position 102 lies within the last
`size / 2 = 101` characters of the window `[0, 202)`, yet the code cuts at
the raw boundary `202` — its backward scan stops at
`max (size / 2) (size - 100) = 102` (exclusive) and never reaches
position 102. -/
theorem sentence_scan_clamped_to_100 :
    terminalAt (List.replicate 102 'a' ++ '.' :: List.replicate 100 'a') 102 = true ∧
      (202 : Int) - (202 : Int).fdiv 2 ≤ 102 ∧
      cutEnd (List.replicate 102 'a' ++ '.' :: List.replicate 100 'a') 0 202 202
        = 202 := by
  refine ⟨by decide, by decide, by decide⟩

/-- C8 (amended): before cutting the window `[start, start + size)` the
chunker breaks right after the largest sentence-terminal position in
`(max (start + size/2) (start + size - 100), start + size]` — i.e. within
the last `size/2` characters but never more than 100 positions below the
window end — and cuts at the raw boundary when that range holds none. -/
theorem chunk_window_break_rule (text : Text) (start size : Int) :
    (∃ j : Int, max (start + size.fdiv 2) (start + size - 100) < j ∧
        j ≤ start + size ∧ terminalAt text j = true ∧
        (∀ l : Int, j < l → l ≤ start + size → terminalAt text l = false) ∧
        cutEnd text start size (start + size) = j + 1) ∨
      ((∀ l : Int, max (start + size.fdiv 2) (start + size - 100) < l →
          l ≤ start + size → terminalAt text l = false) ∧
        cutEnd text start size (start + size) = start + size) :=
  cutEnd_characterization text start size (start + size)

/-- C9 (counterexample): on the whitespace-only text `"  "` (length 2 ≤
size 5) `_chunk_text` returns the single segment `"  "` verbatim — not the
trimmed input, and empty after trimming, so not every returned segment is
non-empty. -/
theorem short_text_returned_untrimmed :
    chunk_text [' ', ' '] 5 3 0 = some [[' ', ' ']] ∧ pyStrip [' ', ' '] = [] := by
  exact ⟨rfl, by decide⟩

/-- C9 (amended): when `len(text) ≤ size` the chunker returns exactly the
raw, untrimmed input as its single segment; only in the sliding-window case
is every kept segment a stripped (trimmed) slice of the text that was
checked non-empty. -/
theorem chunk_text_segment_shape (text : Text) (size overlap : Int) (fuel : Nat)
    (res : List Text) (h : chunk_text text size overlap fuel = some res) :
    ((text.length : Int) ≤ size → res = [text]) ∧
      (size < (text.length : Int) →
        ∀ seg ∈ res, seg ≠ [] ∧ ∃ lo hi : Int, seg = pyStrip (pySlice text lo hi)) := by
  rw [chunk_text] at h
  split at h
  · rename_i hle
    obtain rfl : [text] = res := by simpa using h
    exact ⟨fun _ => rfl, fun hlt => absurd hle (not_le.mpr hlt)⟩
  · rename_i hgt
    refine ⟨fun hle => absurd hle hgt, fun _ => ?_⟩
    exact chunkLoop_segments text size overlap fuel 0 [] res (by simp) h

/-- Witness for `chunk_text_segment_shape` on `"ab c"` with `size = 2`,
`overlap = 1`. -/
theorem chunk_text_segment_shape_inst :
    "ab".toList ≠ [] ∧
      ∃ lo hi : Int, "ab".toList = pyStrip (pySlice "ab c".toList lo hi) :=
  (chunk_text_segment_shape "ab c".toList 2 1 10
      ["ab".toList, "b".toList, "c".toList, "c".toList] (by decide)).2
    (by decide) "ab".toList (by decide)

/-- C2 (counterexample): two successive `add_document` calls both succeed —
no `DimensionMismatch` exists — while the index dimension changes from 1
(vocabulary `{alpha}`) to 3 (vocabulary `{alpha, beta, gamma}`) and
`stats().total_documents` grows from 1 to 2: nothing is rejected and no
dimension is fixed at construction. -/
theorem dimension_changes_across_adds :
    (add_document emptyStore emptyFS "alpha".toList "f1" []).2.2 = none ∧
      ((add_document emptyStore emptyFS "alpha".toList "f1" []).1.index.map
        IndexFlatL2.d) = some 1 ∧
      (get_stats (add_document emptyStore emptyFS "alpha".toList "f1" []).1).total_documents
        = 1 ∧
      (add_document (add_document emptyStore emptyFS "alpha".toList "f1" []).1
          (add_document emptyStore emptyFS "alpha".toList "f1" []).2.1
          "beta gamma".toList "f2" []).2.2 = none ∧
      ((add_document (add_document emptyStore emptyFS "alpha".toList "f1" []).1
          (add_document emptyStore emptyFS "alpha".toList "f1" []).2.1
          "beta gamma".toList "f2" []).1.index.map IndexFlatL2.d) = some 3 ∧
      (get_stats (add_document (add_document emptyStore emptyFS "alpha".toList "f1" []).1
          (add_document emptyStore emptyFS "alpha".toList "f1" []).2.1
          "beta gamma".toList "f2" []).1).total_documents = 2 := by
  decide

/-- C2 (amended): `add_document` performs no dimension check and can raise
no `DimensionMismatch`; instead every successful call refits the vectorizer
over the whole corpus and rebuilds the index from scratch, so after any
successful add on a non-empty corpus the index dimension equals the current
fitted vocabulary size and every vector held in the index has exactly that
length — uniform within one build, but free to differ between builds. -/
theorem add_document_no_dimension_check (st : VectorStore) (fs : FS) (c : Text)
    (fn : String) (ex : Meta) (st2 : VectorStore) (fs2 : FS)
    (h : add_document st fs c fn ex = (st2, fs2, none))
    (hne : st2.documents ≠ []) :
    ∃ ix voc, st2.index = some ix ∧ st2.vectorizer.vocab = some voc ∧
      ix.d = voc.length ∧ ∀ v ∈ ix.xb, v.length = voc.length := by
  obtain ⟨hb, -⟩ := add_document_ok_eq h
  rcases build_index_ok hb with ⟨rfl, hemp⟩ | ⟨hd, hvoc, rfl⟩
  · exact absurd hemp hne
  · refine ⟨_, _, rfl, rfl, rfl, ?_⟩
    intro v hv
    obtain ⟨d0, hd0, rfl⟩ := List.mem_map.mp hv
    simp [countVec]

/-- Witness for `add_document_no_dimension_check` at the first add of the
counterexample run. -/
theorem add_document_no_dimension_check_inst :
    ∃ ix voc,
      (add_document emptyStore emptyFS "alpha".toList "f1" []).1.index = some ix ∧
        (add_document emptyStore emptyFS "alpha".toList "f1" []).1.vectorizer.vocab
          = some voc ∧
        ix.d = voc.length ∧ ∀ v ∈ ix.xb, v.length = voc.length :=
  add_document_no_dimension_check emptyStore emptyFS "alpha".toList "f1" []
    (add_document emptyStore emptyFS "alpha".toList "f1" []).1
    (add_document emptyStore emptyFS "alpha".toList "f1" []).2.1
    (by decide) (by decide)

/-- C3 (counterexample): `add_document("a", "f")` appends the chunk and its
metadata record first and only then vectorizes; the fit fails (empty
vocabulary: the sole token `a` is shorter than two characters), the call
re-raises — yet the store now holds one document and one metadata record it
did not hold before: the partial ingestion is observable. -/
theorem embed_failure_keeps_appended_state :
    (add_document emptyStore emptyFS ['a'] "f" []).2.2 = some "empty vocabulary" ∧
      (add_document emptyStore emptyFS ['a'] "f" []).1.documents = [['a']] ∧
      (add_document emptyStore emptyFS ['a'] "f" []).1.metadata.length = 1 ∧
      emptyStore.documents = [] ∧ emptyStore.metadata.length = 0 := by
  decide

/-- C3 (amended): when the vectorization step of `add_document` fails, the
call raises and the index, vectorizer, trained flag and persisted artifacts
are exactly as before — but the document and metadata lists keep the chunks
appended before the rebuild: the store is not left unchanged. -/
theorem add_document_embed_failure_keeps_chunks (st : VectorStore) (fs : FS)
    (c : Text) (fn : String) (ex : Meta) (st2 : VectorStore) (fs2 : FS) (e : String)
    (h : add_document st fs c fn ex = (st2, fs2, some e)) :
    st2.documents = st.documents ++ chunk1000 c ∧
      st2.metadata.length = st.metadata.length + (chunk1000 c).length ∧
      st2.index = st.index ∧ st2.vectorizer = st.vectorizer ∧
      st2.is_trained = st.is_trained ∧ fs2 = fs := by
  obtain ⟨rfl, rfl⟩ := add_document_error_eq h
  refine ⟨rfl, ?_, rfl, rfl, rfl, rfl⟩
  simp [appended]

/-- Witness for `add_document_embed_failure_keeps_chunks` at the failing
input `"a"`. -/
theorem add_document_embed_failure_keeps_chunks_inst :
    (add_document emptyStore emptyFS ['a'] "f" []).1.documents
        = emptyStore.documents ++ chunk1000 ['a'] ∧
      (add_document emptyStore emptyFS ['a'] "f" []).1.metadata.length
        = emptyStore.metadata.length + (chunk1000 ['a']).length ∧
      (add_document emptyStore emptyFS ['a'] "f" []).1.index = emptyStore.index ∧
      (add_document emptyStore emptyFS ['a'] "f" []).1.vectorizer
        = emptyStore.vectorizer ∧
      (add_document emptyStore emptyFS ['a'] "f" []).1.is_trained
        = emptyStore.is_trained ∧
      (add_document emptyStore emptyFS ['a'] "f" []).2.1 = emptyFS :=
  add_document_embed_failure_keeps_chunks emptyStore emptyFS ['a'] "f" []
    (add_document emptyStore emptyFS ['a'] "f" []).1
    (add_document emptyStore emptyFS ['a'] "f" []).2.1
    "empty vocabulary" (by decide)

/-- C6 (counterexample): a directory whose artifacts disagree — an index
holding one vector beside an empty metadata list — loads without any
count validation: the store comes up trained with `ntotal = 1` and zero
metadata records, an inconsistent state, instead of the claimed
`NotFound`-and-start-empty. -/
theorem load_accepts_count_mismatch :
    (load_index emptyStore
        ⟨some ⟨1, [[1]]⟩, some [['x']], some [], some ⟨some [['x', 'x']]⟩⟩).is_trained
        = true ∧
      (load_index emptyStore
          ⟨some ⟨1, [[1]]⟩, some [['x']], some [],
            some ⟨some [['x', 'x']]⟩⟩).index.map IndexFlatL2.ntotal = some 1 ∧
      (load_index emptyStore
          ⟨some ⟨1, [[1]]⟩, some [['x']], some [],
            some ⟨some [['x', 'x']]⟩⟩).metadata.length = 0 ∧
      load_index emptyStore
          ⟨some ⟨1, [[1]]⟩, some [['x']], some [], some ⟨some [['x', 'x']]⟩⟩
        ≠ emptyStore := by
  decide

/-- C6 (amended): `_load_index` checks only that all four artifact files
exist: when they do, it restores them verbatim — performing no validation
that the index vector count equals the metadata length — and when any file
is missing it leaves the (empty) state of the caller untouched. -/
theorem load_index_presence_only :
    (∀ (st : VectorStore) (ix : IndexFlatL2) (docs : List Text) (md : List Meta)
        (v : TfidfVectorizer),
        load_index st ⟨some ix, some docs, some md, some v⟩
          = ⟨docs, md, some ix, v, true⟩) ∧
      ∀ (st : VectorStore) (fs : FS),
        (fs.indexFile = none ∨ fs.documentsFile = none ∨ fs.metadataFile = none ∨
            fs.vectorizerFile = none) →
          load_index st fs = st := by
  refine ⟨fun st ix docs md v => rfl, ?_⟩
  intro st fs hmiss
  obtain ⟨a, b, c, d⟩ := fs
  cases a <;> cases b <;> cases c <;> cases d <;> first | rfl | simp at hmiss

/-- Witness for `load_index_presence_only`: a complete directory loads
verbatim and the empty directory leaves the store as constructed. -/
theorem load_index_presence_only_inst :
    load_index emptyStore ⟨some ⟨1, [[1]]⟩, some [['x']], some [[]], some ⟨none⟩⟩
        = ⟨[['x']], [[]], some ⟨1, [[1]]⟩, ⟨none⟩, true⟩ ∧
      load_index emptyStore emptyFS = emptyStore :=
  ⟨load_index_presence_only.1 emptyStore ⟨1, [[1]]⟩ [['x']] [[]] ⟨none⟩,
    load_index_presence_only.2 emptyStore emptyFS (Or.inl rfl)⟩

/-- C10 (counterexample): constructing a store over a directory whose
`documents.pkl` holds two chunks but whose `metadata.pkl` holds one record
yields a store with `len(documents) = 2 ≠ 1 = len(metadata)`: `load`
restores the artifacts verbatim, so the parallel-array property fails after
construction/load. -/
theorem load_breaks_parallel_lists :
    (initStore ⟨some ⟨1, [[2]]⟩, some [['x'], ['y']], some [[]],
        some ⟨some [['x', 'x']]⟩⟩).documents.length = 2 ∧
      (initStore ⟨some ⟨1, [[2]]⟩, some [['x'], ['y']], some [[]],
          some ⟨some [['x', 'x']]⟩⟩).metadata.length = 1 := by
  decide

/-- C10 (amended): the document and metadata lists have equal length at
construction from an empty directory and the equality is preserved by every
`add_document` (both lists grow by exactly the chunk count, even when the
rebuild raises), by `clear`, and by loading a snapshot that `save` wrote
from a consistent store (`search` reads but never writes the two lists);
the `i`-th appended metadata record describes the `i`-th appended chunk,
carrying its filename and `chunk_id = i`.  After a `load` of mismatched
artifacts the equality can fail, as the counterexample shows. -/
theorem documents_metadata_parallel :
    emptyStore.documents.length = emptyStore.metadata.length ∧
      (∀ (st : VectorStore) (fs : FS) (c : Text) (fn : String) (ex : Meta),
        (add_document st fs c fn ex).1.documents.length
            = st.documents.length + (chunk1000 c).length ∧
          (add_document st fs c fn ex).1.metadata.length
            = st.metadata.length + (chunk1000 c).length) ∧
      (∀ (st : VectorStore) (fs : FS),
        (clear st fs).1.documents.length = (clear st fs).1.metadata.length) ∧
      (∀ st : VectorStore, st.documents.length = st.metadata.length →
        (load_index emptyStore (save_index st emptyFS)).documents.length
          = (load_index emptyStore (save_index st emptyFS)).metadata.length) ∧
      ∀ (fn : String) (i n : Nat),
        metaGet "filename" (chunkMeta fn i n []) = some (.str fn) ∧
          metaGet "chunk_id" (chunkMeta fn i n []) = some (.nat i) := by
  refine ⟨rfl, ?_, fun st fs => rfl, ?_, fun fn i n => ⟨rfl, rfl⟩⟩
  · intro st fs c fn ex
    obtain ⟨h1, h2⟩ := add_document_fst_lists st fs c fn ex
    rw [h1, h2]
    constructor
    · simp [appended]
    · simp [appended]
  · intro st hlen
    cases hix : st.index with
    | none =>
      have hsv : save_index st emptyFS = emptyFS := by rw [save_index, hix]
      rw [hsv]
      rfl
    | some ix =>
      have hsv : save_index st emptyFS
          = ⟨some ix, some st.documents, some st.metadata, some st.vectorizer⟩ := by
        rw [save_index, hix]
      rw [hsv]
      exact hlen

/-- Witness for `documents_metadata_parallel`: the load-of-save conjunct at
the store produced by one successful add. -/
theorem documents_metadata_parallel_inst :
    (load_index emptyStore
        (save_index (add_document emptyStore emptyFS "alpha".toList "f1" []).1
          emptyFS)).documents.length
      = (load_index emptyStore
          (save_index (add_document emptyStore emptyFS "alpha".toList "f1" []).1
            emptyFS)).metadata.length :=
  documents_metadata_parallel.2.2.2.1 _ (by decide)

end CIOAgent
